import Mathlib

/-!
Verification of the subprocess command-execution and version-control
orchestration layer of `src/cli/src/utils.rs`: the `CommandUtils::exec`
extension of `std::process::Command` and the `Git` repository handle built
on top of it.

The embedding is shallow: a `Command` value records the invocation being
built (program, argument vector, working directory, stream dispositions),
an `Output` value records what the child process produced (exit code,
captured stdout and stderr, both already lossily decoded to text), and each
operation is a pure function from those values, translated line by line
from the Rust source.  String primitives used by the source
(`str::trim`, `str::contains`, `str::lines`, `str::starts_with`) are
modelled over `String.data` so that every definition evaluates inside the
kernel.
-/

namespace Foundry

/-! ## String primitives of the Rust standard library -/

/-- Model of `str::trim` on the underlying character list: drop whitespace
from both ends.  Rust trims Unicode `White_Space`; this model covers the
ASCII whitespace characters recognised by `Char.isWhitespace`, which is all
the source ever relies on. -/
def chTrim (l : List Char) : List Char :=
  ((l.dropWhile Char.isWhitespace).reverse.dropWhile Char.isWhitespace).reverse

/-- Model of `str::trim` at the `String` level. -/
def rustTrim (s : String) : String :=
  ⟨chTrim s.data⟩

/-- Model of `str::starts_with(char)`: the first character equals `c`. -/
def strStartsWithChar (s : String) (c : Char) : Bool :=
  match s.data with
  | [] => false
  | a :: _ => a == c

/-- Model of `str::contains(&str)` on character lists: `pat` occurs as a
contiguous subsequence of `s`. -/
def containsSub : List Char → List Char → Bool
  | [], pat => pat.isEmpty
  | c :: rest, pat => pat.isPrefixOf (c :: rest) || containsSub rest pat

/-- Model of `str::contains(&str)` at the `String` level. -/
def strContains (s pat : String) : Bool :=
  containsSub s.data pat.data

/-- Split a character list at every newline character, keeping empty
segments (the splitting step of `str::lines`). -/
def splitNl : List Char → List (List Char)
  | [] => [[]]
  | c :: rest =>
    if c = '\n' then [] :: splitNl rest
    else
      match splitNl rest with
      | [] => [[c]]
      | l :: ls => (c :: l) :: ls

/-- Drop one trailing carriage return, as `str::lines` does for a line that
was terminated by the sequence CR LF. -/
def stripTrailingCR (l : List Char) : List Char :=
  if l.getLast? = some '\r' then l.dropLast else l

/-- Combine the split segments the way `str::lines` does: a final empty
segment (produced by a trailing newline) yields no line, a final non-empty
segment is kept verbatim, and every other segment loses one trailing
carriage return. -/
def rustLinesFrom : List (List Char) → List (List Char)
  | [] => []
  | [last] => if last.isEmpty then [] else [last]
  | p :: rest => stripTrailingCR p :: rustLinesFrom rest

/-- Model of `str::lines`. -/
def rustLines (s : String) : List String :=
  (rustLinesFrom (splitNl s.data)).map (fun l => (⟨l⟩ : String))

/-- Model of `bool::then_some`. -/
def thenSome {α : Type} (b : Bool) (a : α) : Option α :=
  if b then some a else none

/-! ## Process data model -/

/-- Disposition of a child process standard stream
(`std::process::Stdio`): captured by the parent, or inherited from it. -/
inductive Stdio where
  | piped
  | inherit
deriving DecidableEq

/-- Model of `std::process::Command` as the invocation descriptor it
accumulates: program name, ordered argument vector, optional explicit
working directory (`none` means the ambient working directory is
inherited), and the configured dispositions of the two output streams. -/
structure Command where
  program : String
  args : List String
  cwd : Option String
  stdoutCfg : Stdio
  stderrCfg : Stdio

/-- Model of `Command::new`: empty argument vector, no explicit working
directory.  Every invocation of this layer sets both stream dispositions
explicitly, so their initial value is never observed; `inherit` mirrors a
freshly spawned child. -/
def Command.new (program : String) : Command :=
  { program := program, args := [], cwd := none,
    stdoutCfg := Stdio.inherit, stderrCfg := Stdio.inherit }

/-- Model of `Command::arg`. -/
def Command.arg (c : Command) (a : String) : Command :=
  { c with args := c.args ++ [a] }

/-- Model of `Command::args`. -/
def Command.addArgs (c : Command) (xs : List String) : Command :=
  { c with args := c.args ++ xs }

/-- Model of `Command::current_dir`. -/
def Command.current_dir (c : Command) (d : String) : Command :=
  { c with cwd := some d }

/-- Model of `Command::stdout`. -/
def Command.stdout (c : Command) (s : Stdio) : Command :=
  { c with stdoutCfg := s }

/-- Model of `Command::stderr`. -/
def Command.stderr (c : Command) (s : Stdio) : Command :=
  { c with stderrCfg := s }

/-- Model of `std::process::Output`: the exit code (`none` when the child
was terminated by a signal and therefore has no exit code) and the two
captured streams, already lossily decoded (`String::from_utf8_lossy`). -/
structure Output where
  code : Option Int
  stdout : String
  stderr : String

/-- Model of `ExitStatus::success`: the child exited with code `0`. -/
def statusSuccess (code : Option Int) : Bool :=
  code == some 0

/-! ## Process Runner: `CommandUtils::exec` -/

/-- Program name decorated with the first argument, from
`CommandUtils::exec`: the first argument of the vector is appended after a
space when it is present and does not start with a dash. -/
def Command.displayName (c : Command) : String :=
  match c.args with
  | [] => c.program
  | arg :: _ =>
    if strStartsWithChar arg '-' then c.program else c.program ++ " " ++ arg

/-- Head of the failure message built by `CommandUtils::exec`: the
decorated program name followed by the exit code, or by the signal text
when there is no exit code. -/
def Command.errHead (c : Command) (code : Option Int) : String :=
  match code with
  | some n => c.displayName ++ " exited with code " ++ toString n
  | none => c.displayName ++ " terminated by a signal"

/-- Diagnostic body selected by `CommandUtils::exec`: trimmed stderr, and
when that is empty, trimmed stdout. -/
def diagnosticBody (out : Output) : String :=
  let msg := rustTrim out.stderr
  if msg = "" then rustTrim out.stdout else msg

/-- Failure message of `CommandUtils::exec`: the head, followed by a colon
and the diagnostic body when the body is non-empty. -/
def Command.errorMsg (c : Command) (out : Output) : String :=
  let msg := diagnosticBody out
  if msg = "" then c.errHead out.code else c.errHead out.code ++ ": " ++ msg

/-- Model of `CommandUtils::exec` for `std::process::Command`, as a
function of the output the child produced: the captured output on a
successful exit, and the classified failure message otherwise. -/
def Command.exec (c : Command) (out : Output) : Except String Output :=
  if statusSuccess out.code then Except.ok out
  else Except.error (c.errorMsg out)

/-- Model of `CommandUtils::get_stdout_lossy`: trimmed, lossily decoded
stdout of a successful execution. -/
def Command.get_stdout_lossy (c : Command) (out : Output) : Except String String :=
  (c.exec out).map (fun o => rustTrim o.stdout)

/-! ## Repository Handle: `Git` -/

/-- Model of the `Git` handle: working directory root, quiet flag, shallow
flag.  The Rust value borrows its root path; the model stores the path. -/
structure Git where
  root : String
  quiet : Bool
  shallow : Bool

/-- Model of `Git::new`. -/
def Git.new (root : String) : Git :=
  { root := root, quiet := false, shallow := false }

/-- Model of `Git::cmd_no_root`: a `git` command with both output streams
piped and no explicit working directory. -/
def Git.cmd_no_root : Command :=
  ((Command.new "git").stdout Stdio.piped).stderr Stdio.piped

/-- Model of `Git::cmd`: `cmd_no_root` with the handle root as working
directory. -/
def Git.cmd (g : Git) : Command :=
  Git.cmd_no_root.current_dir g.root

/-- Model of the private `Git::stderr` helper: piped when quiet, inherited
otherwise. -/
def Git.stderr (g : Git) : Stdio :=
  if g.quiet then Stdio.piped else Stdio.inherit

/-- Invocation built by `Git::root_of`: `rev-parse --show-toplevel` with
the caller-supplied path as working directory. -/
def Git.root_ofCmd (relative_to : String) : Command :=
  (Git.cmd_no_root.current_dir relative_to).addArgs ["rev-parse", "--show-toplevel"]

/-- Model of `Git::root_of`, as a function of the child's output. -/
def Git.root_of (relative_to : String) (out : Output) : Except String String :=
  (Git.root_ofCmd relative_to).get_stdout_lossy out

/-- Invocation built by `Git::clone`: stderr inherited, then
`clone --recurse-submodules`, the two shallow flags when `shallow` is set,
the source, and the optional destination. -/
def Git.cloneCmd (shallow : Bool) (src : String) (dst : Option String) : Command :=
  (((((Git.cmd_no_root.stderr Stdio.inherit).addArgs
      ["clone", "--recurse-submodules"]).addArgs
      (thenSome shallow "--depth=1").toList).addArgs
      (thenSome shallow "--shallow-submodules").toList).arg src).addArgs dst.toList

/-- Model of `Git::clone`, as a function of the child's output. -/
def Git.clone (shallow : Bool) (src : String) (dst : Option String) (out : Output) :
    Except String Unit :=
  ((Git.cloneCmd shallow src dst).exec out).map (fun _ => ())

/-- Invocation built by `Git::checkout`. -/
def Git.checkoutCmd (g : Git) (recursive : Bool) (tag : String) : Command :=
  ((g.cmd.arg "checkout").addArgs
    (thenSome recursive "--recurse-submodules").toList).arg tag

/-- Invocation built by `Git::init`. -/
def Git.initCmd (g : Git) : Command :=
  g.cmd.arg "init"

/-- Invocation built by `Git::add`. -/
def Git.addCmd (g : Git) (paths : List String) : Command :=
  (g.cmd.arg "add").addArgs paths

/-- Invocation built by `Git::rm`. -/
def Git.rmCmd (g : Git) (force : Bool) (paths : List String) : Command :=
  ((g.cmd.arg "rm").addArgs (thenSome force "--force").toList).addArgs paths

/-- Invocation built by `Git::commit`; `debug_assertions` models
`cfg!(any(test, debug_assertions))`, which appends `--no-gpg-sign` in test
and debug builds only. -/
def Git.commitCmd (g : Git) (debug_assertions : Bool) (msg : String) : Command :=
  (g.cmd.addArgs ["commit", "-m", msg]).addArgs
    (thenSome debug_assertions "--no-gpg-sign").toList

/-- Literal message recognised by `Git::commit` as a benign failure. -/
def nothing_to_commit_msg : String :=
  "nothing to commit, working tree clean"

/-- Escape of one character in the model of Rust `Debug` string formatting
used by the `Git::commit` failure message; the common escapes suffice
here. -/
def escapeDebugChar (c : Char) : List Char :=
  if c = '"' then ['\\', '"']
  else if c = '\\' then ['\\', '\\']
  else if c = '\n' then ['\\', 'n']
  else if c = '\r' then ['\\', 'r']
  else if c = '\t' then ['\\', 't']
  else [c]

/-- Model of Rust `{:?}` formatting of a string. -/
def rustDebugStr (s : String) : String :=
  ⟨'"' :: ((s.data.map escapeDebugChar).flatten ++ ['"'])⟩

/-- Model of Rust `{:?}` formatting of an `Option` exit code. -/
def rustDebugOptInt : Option Int → String
  | some n => "Some(" ++ toString n ++ ")"
  | none => "None"

/-- Model of `Git::commit`, as a function of the child's output: a
successful exit succeeds; a failing exit whose stdout or stderr contains
the nothing-to-commit message is forgiven; any other failing exit is an
error carrying code and both trimmed streams. -/
def Git.commit (g : Git) (msg : String) (out : Output) : Except String Unit :=
  if statusSuccess out.code then Except.ok ()
  else if strContains out.stdout nothing_to_commit_msg
      || strContains out.stderr nothing_to_commit_msg then Except.ok ()
  else
    Except.error ("failed to commit (code=" ++ rustDebugOptInt out.code ++
      ", stdout=" ++ rustDebugStr (rustTrim out.stdout) ++
      ", stderr=" ++ rustDebugStr (rustTrim out.stderr) ++ ")")

/-- Invocation built by `Git::is_in_repo`. -/
def Git.is_in_repoCmd (g : Git) : Command :=
  g.cmd.addArgs ["rev-parse", "--is-inside-work-tree"]

/-- Model of `Git::is_in_repo`: success of the exit status. -/
def Git.is_in_repo (g : Git) (out : Output) : Bool :=
  statusSuccess out.code

/-- Invocation built by `Git::is_clean`. -/
def Git.is_cleanCmd (g : Git) : Command :=
  g.cmd.addArgs ["status", "--porcelain"]

/-- Model of `Git::is_clean`: emptiness of the captured stdout of a
successful `status --porcelain`. -/
def Git.is_clean (g : Git) (out : Output) : Except String Bool :=
  ((g.is_cleanCmd).exec out).map (fun o => o.stdout.isEmpty)

/-- Invocation built by `Git::has_branch`. -/
def Git.has_branchCmd (g : Git) (branch : String) : Command :=
  (g.cmd.addArgs ["branch", "--list", "--no-color"]).arg branch

/-- Model of `Git::has_branch`: non-emptiness of the trimmed stdout. -/
def Git.has_branch (g : Git) (branch : String) (out : Output) : Except String Bool :=
  ((g.has_branchCmd branch).get_stdout_lossy out).map (fun s => !s.isEmpty)

/-- Invocation built by `Git::commit_hash`. -/
def Git.commit_hashCmd (g : Git) (short : Bool) : Command :=
  ((g.cmd.arg "rev-parse").addArgs (thenSome short "--short").toList).arg "HEAD"

/-- Invocation built by `Git::tag`. -/
def Git.tagCmd (g : Git) : Command :=
  g.cmd.arg "tag"

/-- Invocation built by `Git::has_missing_dependencies`. -/
def Git.has_missing_dependenciesCmd (g : Git) (paths : List String) : Command :=
  (g.cmd.addArgs ["submodule", "status"]).addArgs paths

/-- Model of `Git::has_missing_dependencies`: some line of the trimmed
stdout of `submodule status` starts with a dash. -/
def Git.has_missing_dependencies (g : Git) (paths : List String) (out : Output) :
    Except String Bool :=
  ((g.has_missing_dependenciesCmd paths).get_stdout_lossy out).map
    (fun stdout => (rustLines stdout).any (fun line => strStartsWithChar line '-'))

/-- Invocation built by `Git::submodule_add`: stderr disposition from the
quiet flag, shallow and force flags conditional. -/
def Git.submodule_addCmd (g : Git) (force : Bool) (url path : String) : Command :=
  (((((g.cmd.stderr g.stderr).addArgs ["submodule", "add"]).addArgs
      (thenSome g.shallow "--depth=1").toList).addArgs
      (thenSome force "--force").toList).arg url).arg path

/-- Invocation built by `Git::submodule_update`: stderr disposition from
the quiet flag, shallow, force and remote flags conditional. -/
def Git.submodule_updateCmd (g : Git) (force remote : Bool) (paths : List String) : Command :=
  (((((g.cmd.stderr g.stderr).addArgs
      ["submodule", "update", "--progress", "--init", "--recursive"]).addArgs
      (thenSome g.shallow "--depth=1").toList).addArgs
      (thenSome force "--force").toList).addArgs
      (thenSome remote "--remote").toList).addArgs paths

/-! ## Helper lemmas -/

lemma isPrefixOf_append_right (p t : List Char) : p.isPrefixOf (p ++ t) = true := by
  induction p with
  | nil => simp [List.isPrefixOf]
  | cons a as ih => simp [List.isPrefixOf, ih]

lemma containsSub_of_isPrefixOf {pat s : List Char} (h : pat.isPrefixOf s = true) :
    containsSub s pat = true := by
  cases s with
  | nil =>
    cases pat with
    | nil => rfl
    | cons b bs => simp [List.isPrefixOf] at h
  | cons c rest => simp [containsSub, h]

lemma containsSub_append (l1 pat l2 : List Char) :
    containsSub (l1 ++ (pat ++ l2)) pat = true := by
  induction l1 with
  | nil => exact containsSub_of_isPrefixOf (isPrefixOf_append_right pat l2)
  | cons a as ih => simp [containsSub, ih]

lemma strContains_of_data {s : String} (pat : String) (l1 l2 : List Char)
    (h : s.data = l1 ++ (pat.data ++ l2)) : strContains s pat = true := by
  unfold strContains
  rw [h]
  exact containsSub_append l1 pat.data l2

lemma displayName_data (c : Command) :
    ∃ t, (c.displayName).data = c.program.data ++ t := by
  obtain ⟨prog, args, cwd, so, se⟩ := c
  cases args with
  | nil => exact ⟨[], by simp [Command.displayName]⟩
  | cons a rest =>
    cases h : strStartsWithChar a '-' with
    | true => exact ⟨[], by simp [Command.displayName, h]⟩
    | false =>
      exact ⟨(" " : String).data ++ a.data,
        by simp [Command.displayName, h, String.data_append, List.append_assoc]⟩

lemma errHead_some_data (c : Command) (n : Int) :
    (c.errHead (some n)).data =
      c.displayName.data ++ (' ' :: (("exited with code " ++ toString n) : String).data) := by
  have h : (" exited with code " : String).data =
      ' ' :: ("exited with code " : String).data := by decide
  simp [Command.errHead, String.data_append, h, List.append_assoc]

lemma errHead_none_data (c : Command) :
    (c.errHead none).data =
      c.displayName.data ++ (' ' :: ("terminated by a signal" : String).data) := by
  have h : (" terminated by a signal" : String).data =
      ' ' :: ("terminated by a signal" : String).data := by decide
  simp [Command.errHead, String.data_append, h]

lemma errHead_data_decomp (c : Command) (code : Option Int) :
    ∃ s, (c.errHead code).data = c.displayName.data ++ s := by
  cases code with
  | none => exact ⟨_, errHead_none_data c⟩
  | some n => exact ⟨_, errHead_some_data c n⟩

lemma errorMsg_data_decomp (c : Command) (out : Output) :
    ∃ t, (c.errorMsg out).data = (c.errHead out.code).data ++ t := by
  simp only [Command.errorMsg]
  split
  · exact ⟨[], by simp⟩
  · exact ⟨(": " : String).data ++ (diagnosticBody out).data,
      by simp [String.data_append, List.append_assoc]⟩

lemma statusSuccess_eq_false {code : Option Int} (h : code ≠ some 0) :
    statusSuccess code = false := by
  simp [statusSuccess]
  exact h

/-! ## Claims about the Process Runner -/

/-- Claim C1: for every invocation run through `exec`, a child exiting
with status zero yields success carrying the captured output; a non-zero
exit or a signal termination yields a failure whose message contains the
program name and the exit code, or the text "terminated by a signal" when
there is no exit code. -/
theorem exec_classification (c : Command) (out : Output) :
    (out.code = some 0 → c.exec out = Except.ok out) ∧
    (out.code ≠ some 0 →
      c.exec out = Except.error (c.errorMsg out) ∧
      strContains (c.errorMsg out) c.program = true ∧
      (∀ n : Int, out.code = some n →
        strContains (c.errorMsg out) ("exited with code " ++ toString n) = true ∧
        strContains (c.errorMsg out) (toString n) = true) ∧
      (out.code = none →
        strContains (c.errorMsg out) "terminated by a signal" = true)) := by
  constructor
  · intro h
    simp [Command.exec, statusSuccess, h]
  · intro h
    obtain ⟨t, ht⟩ := errorMsg_data_decomp c out
    refine ⟨by simp [Command.exec, statusSuccess_eq_false h], ?_, ?_, ?_⟩
    · obtain ⟨s, hs⟩ := errHead_data_decomp c out.code
      obtain ⟨t0, ht0⟩ := displayName_data c
      apply strContains_of_data c.program [] (t0 ++ (s ++ t))
      rw [ht, hs, ht0]
      simp [List.append_assoc]
    · intro n hn
      rw [hn] at ht
      rw [errHead_some_data] at ht
      constructor
      · apply strContains_of_data ("exited with code " ++ toString n)
          (c.displayName.data ++ [' ']) t
        rw [ht]
        simp [List.append_assoc]
      · apply strContains_of_data (toString n)
          (c.displayName.data ++ ' ' :: ("exited with code " : String).data) t
        rw [ht]
        simp [String.data_append, List.append_assoc]
    · intro hn
      rw [hn] at ht
      rw [errHead_none_data] at ht
      apply strContains_of_data "terminated by a signal"
        (c.displayName.data ++ [' ']) t
      rw [ht]
      simp [List.append_assoc]

/-- Witness for C1: a concrete signal-terminated invocation of `git`. -/
theorem exec_classification_witness :
    (Command.new "git").exec ⟨none, "", ""⟩ =
        Except.error ((Command.new "git").errorMsg ⟨none, "", ""⟩) ∧
    strContains ((Command.new "git").errorMsg ⟨none, "", ""⟩) "git" = true ∧
    strContains ((Command.new "git").errorMsg ⟨none, "", ""⟩) "terminated by a signal" = true := by
  obtain ⟨h1, h2, h3, h4⟩ :=
    (exec_classification (Command.new "git") ⟨none, "", ""⟩).2 (by decide)
  exact ⟨h1, h2, h4 rfl⟩

/-- Claim C2: for every failing invocation, the diagnostic body appended
to the error message is the trimmed stderr when stderr is non-empty after
trimming, and the trimmed stdout otherwise. -/
theorem exec_diagnostic_body (c : Command) (out : Output) (h : out.code ≠ some 0) :
    c.exec out = Except.error (c.errorMsg out) ∧
    (rustTrim out.stderr ≠ "" →
      c.errorMsg out = c.errHead out.code ++ ": " ++ rustTrim out.stderr) ∧
    (rustTrim out.stderr = "" → rustTrim out.stdout ≠ "" →
      c.errorMsg out = c.errHead out.code ++ ": " ++ rustTrim out.stdout) := by
  refine ⟨by simp [Command.exec, statusSuccess_eq_false h], ?_, ?_⟩
  · intro hs
    simp [Command.errorMsg, diagnosticBody, hs]
  · intro hs hout
    simp [Command.errorMsg, diagnosticBody, hs, hout]

/-- Witness for C2: a concrete failing `git fetch` whose stderr carries
the diagnostic. -/
theorem exec_diagnostic_body_witness :
    ((Command.new "git").arg "fetch").errorMsg ⟨some 1, "", " boom "⟩ =
      "git fetch exited with code 1: boom" := by
  have h :=
    (exec_diagnostic_body ((Command.new "git").arg "fetch") ⟨some 1, "", " boom "⟩
      (by decide)).2.1 (by decide)
  rw [h]
  decide

/-- Counterexample to C3 as stated: the argument vector
`["-c", "submodule"]` contains the non-flag argument "submodule", yet the
error message does not contain "git submodule", because the source only
inspects the first argument of the vector. -/
theorem exec_first_nonflag_counterexample :
    ((Command.new "git").addArgs ["-c", "submodule"]).exec ⟨some 1, "", ""⟩ =
        Except.error "git exited with code 1" ∧
    strContains "git exited with code 1" ("git" ++ " " ++ "submodule") = false := by
  constructor
  · rfl
  · decide

/-- Claim C3 amended: for every failing invocation whose first argument
does not start with a dash, the error message contains the program name
followed by that first argument. -/
theorem exec_first_arg_nonflag (c : Command) (arg : String) (rest : List String)
    (out : Output) (hargs : c.args = arg :: rest)
    (hdash : strStartsWithChar arg '-' = false) (h : out.code ≠ some 0) :
    c.exec out = Except.error (c.errorMsg out) ∧
    strContains (c.errorMsg out) (c.program ++ " " ++ arg) = true := by
  have hdn : c.displayName = c.program ++ " " ++ arg := by
    simp [Command.displayName, hargs, hdash]
  obtain ⟨t, ht⟩ := errorMsg_data_decomp c out
  obtain ⟨s, hs⟩ := errHead_data_decomp c out.code
  refine ⟨by simp [Command.exec, statusSuccess_eq_false h], ?_⟩
  apply strContains_of_data (c.program ++ " " ++ arg) [] (s ++ t)
  rw [ht, hs, ← hdn]
  simp [List.append_assoc]

/-- Witness for the amended C3: a failing `git submodule status`. -/
theorem exec_first_arg_nonflag_witness :
    strContains
      (((Command.new "git").addArgs ["submodule", "status"]).errorMsg ⟨some 128, "", ""⟩)
      ("git" ++ " " ++ "submodule") = true :=
  (exec_first_arg_nonflag ((Command.new "git").addArgs ["submodule", "status"])
    "submodule" ["status"] ⟨some 128, "", ""⟩ rfl (by decide) (by decide)).2

/-- Claim C10: for every failing invocation in which both trimmed streams
are empty, the error message is exactly the decorated program name
followed by the exit-code text or the signal text, with no colon or
diagnostic body appended. -/
theorem exec_empty_diagnostic (c : Command) (out : Output) (h : out.code ≠ some 0)
    (h1 : rustTrim out.stderr = "") (h2 : rustTrim out.stdout = "") :
    c.exec out = Except.error (c.errHead out.code) ∧
    (∀ n : Int, out.code = some n →
      c.errHead out.code = c.displayName ++ " exited with code " ++ toString n) ∧
    (out.code = none →
      c.errHead out.code = c.displayName ++ " terminated by a signal") := by
  refine ⟨?_, ?_, ?_⟩
  · simp [Command.exec, statusSuccess_eq_false h, Command.errorMsg, diagnosticBody, h1, h2]
  · intro n hn
    rw [hn]
    rfl
  · intro hn
    rw [hn]
    rfl

/-- Witness for C10: a failing `git status` with whitespace-only
streams. -/
theorem exec_empty_diagnostic_witness :
    ((Command.new "git").arg "status").exec ⟨some 2, " ", "\t"⟩ =
      Except.error (((Command.new "git").arg "status").errHead (some 2)) :=
  (exec_empty_diagnostic ((Command.new "git").arg "status") ⟨some 2, " ", "\t"⟩
    (by decide) (by decide) (by decide)).1

/-! ## Claims about the Repository Handle -/

/-- Claim C4: `commit` succeeds exactly when the child exits zero, or
exits non-zero with the literal nothing-to-commit message appearing in the
combined stdout and stderr (that is, in either stream); any other
non-zero exit is a failure. -/
theorem commit_nothing_to_commit (g : Git) (msg : String) (out : Output) :
    g.commit msg out = Except.ok () ↔
      (out.code = some 0 ∨
        strContains out.stdout nothing_to_commit_msg = true ∨
        strContains out.stderr nothing_to_commit_msg = true) := by
  unfold Git.commit
  by_cases h : out.code = some 0
  · simp [statusSuccess, h]
  · rw [statusSuccess_eq_false h]
    by_cases h1 : strContains out.stdout nothing_to_commit_msg = true
    · simp [h, h1]
    · by_cases h2 : strContains out.stderr nothing_to_commit_msg = true
      · simp [h, h1, h2]
      · simp [h, h1, h2]

/-- Claim C5: `is_clean` returns true exactly when the
`status --porcelain` child succeeds with empty stdout, and false exactly
when it succeeds with non-empty stdout. -/
theorem is_clean_iff (g : Git) (out : Output) :
    (g.is_clean out = Except.ok true ↔ (out.code = some 0 ∧ out.stdout = "")) ∧
    (g.is_clean out = Except.ok false ↔ (out.code = some 0 ∧ out.stdout ≠ "")) := by
  unfold Git.is_clean Command.exec
  by_cases h : out.code = some 0
  · simp [statusSuccess, h, Except.map, Bool.eq_false_iff, String.isEmpty_iff]
  · simp [statusSuccess_eq_false h, h, Except.map]

/-- Claim C6: `clone` constructs exactly the argument vector
`clone --recurse-submodules`, then `--depth=1 --shallow-submodules` when
and only when shallow is set, then the source, then the optional
destination. -/
theorem clone_args (shallow : Bool) (src : String) (dst : Option String) :
    (Git.cloneCmd shallow src dst).args =
      ["clone", "--recurse-submodules"] ++
        (if shallow then ["--depth=1", "--shallow-submodules"] else []) ++
        [src] ++ dst.toList := by
  cases shallow <;> cases dst <;>
    simp [Git.cloneCmd, Git.cmd_no_root, Command.new, Command.addArgs, Command.arg,
      Command.stderr, Command.stdout, thenSome]

/-- Counterexample to C7 as stated: the invocation built by `clone` has no
explicit working directory, so this operation of the layer does execute
with the ambient, inherited working directory. -/
theorem clone_ambient_cwd_counterexample :
    (Git.cloneCmd false "https://example.com/repo.git" none).cwd = none := rfl

/-- Claim C7 amended: every handle-scoped operation runs with the handle
root as explicit working directory and `root_of` runs with the
caller-supplied path, while the static `clone` operation runs with the
ambient working directory. -/
theorem operations_explicit_cwd (g : Git)
    (relative_to tag url path src msg branch : String)
    (recursive force remote short shallow debug_assertions : Bool)
    (paths : List String) (dst : Option String) :
    (g.checkoutCmd recursive tag).cwd = some g.root ∧
    g.initCmd.cwd = some g.root ∧
    (g.addCmd paths).cwd = some g.root ∧
    (g.rmCmd force paths).cwd = some g.root ∧
    (g.commitCmd debug_assertions msg).cwd = some g.root ∧
    g.is_in_repoCmd.cwd = some g.root ∧
    g.is_cleanCmd.cwd = some g.root ∧
    (g.has_branchCmd branch).cwd = some g.root ∧
    (g.commit_hashCmd short).cwd = some g.root ∧
    g.tagCmd.cwd = some g.root ∧
    (g.has_missing_dependenciesCmd paths).cwd = some g.root ∧
    (g.submodule_addCmd force url path).cwd = some g.root ∧
    (g.submodule_updateCmd force remote paths).cwd = some g.root ∧
    (Git.root_ofCmd relative_to).cwd = some relative_to ∧
    (Git.cloneCmd shallow src dst).cwd = none :=
  ⟨rfl, rfl, rfl, rfl, rfl, rfl, rfl, rfl, rfl, rfl, rfl, rfl, rfl, rfl, rfl⟩

/-- Counterexample to C8 as stated: with quiet false, the side-effecting
`init` operation still captures stderr instead of letting it stream to the
terminal. -/
theorem init_stderr_captured_counterexample :
    (Git.new "repo").quiet = false ∧
    ((Git.new "repo").initCmd).stderrCfg = Stdio.piped ∧
    Stdio.piped ≠ Stdio.inherit := by
  refine ⟨rfl, rfl, ?_⟩
  decide

/-- Claim C8 amended: when quiet is true every handle-scoped operation
captures the child's stderr; when quiet is false only the submodule
operations let stderr stream to the terminal, and every other
handle-scoped operation captures stderr regardless of the flag. -/
theorem operations_stderr_disposition (g : Git)
    (relative_to tag url path msg branch : String)
    (recursive force remote short debug_assertions : Bool)
    (paths : List String) :
    (g.checkoutCmd recursive tag).stderrCfg = Stdio.piped ∧
    g.initCmd.stderrCfg = Stdio.piped ∧
    (g.addCmd paths).stderrCfg = Stdio.piped ∧
    (g.rmCmd force paths).stderrCfg = Stdio.piped ∧
    (g.commitCmd debug_assertions msg).stderrCfg = Stdio.piped ∧
    g.is_in_repoCmd.stderrCfg = Stdio.piped ∧
    g.is_cleanCmd.stderrCfg = Stdio.piped ∧
    (g.has_branchCmd branch).stderrCfg = Stdio.piped ∧
    (g.commit_hashCmd short).stderrCfg = Stdio.piped ∧
    g.tagCmd.stderrCfg = Stdio.piped ∧
    (g.has_missing_dependenciesCmd paths).stderrCfg = Stdio.piped ∧
    (Git.root_ofCmd relative_to).stderrCfg = Stdio.piped ∧
    (g.submodule_addCmd force url path).stderrCfg =
      (if g.quiet then Stdio.piped else Stdio.inherit) ∧
    (g.submodule_updateCmd force remote paths).stderrCfg =
      (if g.quiet then Stdio.piped else Stdio.inherit) :=
  ⟨rfl, rfl, rfl, rfl, rfl, rfl, rfl, rfl, rfl, rfl, rfl, rfl, rfl, rfl⟩

/-- Claim C9: `has_missing_dependencies` returns true exactly when the
child succeeds and some line of its trimmed, lossily decoded stdout starts
with a dash, and false exactly when the child succeeds and no line
does. -/
theorem has_missing_dependencies_iff (g : Git) (paths : List String) (out : Output) :
    (g.has_missing_dependencies paths out = Except.ok true ↔
      (out.code = some 0 ∧
        ∃ line ∈ rustLines (rustTrim out.stdout), strStartsWithChar line '-' = true)) ∧
    (g.has_missing_dependencies paths out = Except.ok false ↔
      (out.code = some 0 ∧
        ∀ line ∈ rustLines (rustTrim out.stdout), strStartsWithChar line '-' = false)) := by
  unfold Git.has_missing_dependencies Command.get_stdout_lossy Command.exec
  by_cases h : out.code = some 0
  · simp [statusSuccess, h, Except.map, List.any_eq_true, List.any_eq_false]
  · simp [statusSuccess_eq_false h, h, Except.map]

end Foundry
